import Mathlib

/-!
Verification of mjrl (model-based RL pipeline): shallow embedding of
`mjrl/policies/gaussian_mlp.py` (the Gaussian MLP policy's parameter
handling and distribution computations) and of the training-loop script
`mjrl/algos/model_accel/run_experiments/run_npgq.py` (checkpointing,
configuration validation, optional-metric logging, path-window trimming),
together with theorems settling the specification's testable properties.

Machine floats are embedded as exact numbers: rationals for the parameter
plumbing, reals for the Gaussian density computations.
-/

/-! ## Gaussian MLP policy: parameter snapshots
Embedding of `MLP.get_param_values` / `MLP.set_param_values`
(gaussian_mlp.py lines 63-90).  A parameter snapshot is the list of
weight blocks of the network (`model.parameters()`, each flattened) plus
the `log_std` block; `trainable_params = list(model.parameters()) + [log_std]`.
Entries are rationals standing for the float values. -/

structure MLPParams where
  model_params : List (List ℚ)
  log_std : List ℚ
deriving DecidableEq, Repr

/-- Policy state: current ("new") snapshot, old snapshot, and the
configured `min_log_std` floor. -/
structure MLPState where
  params : MLPParams
  old : MLPParams
  min_log_std : ℚ
deriving DecidableEq, Repr

/-- Number of scalar parameters in the network blocks (excluding log_std);
`np.sum(param_sizes[:-1])` in the source. -/
def model_size (p : MLPParams) : ℕ :=
  (p.model_params.map List.length).sum

/-- `self.d`: total number of scalar parameters, network blocks plus log_std. -/
def total_size (p : MLPParams) : ℕ :=
  model_size p + p.log_std.length

/-- `get_param_values`: concatenate every trainable block, flattened, in
order — network blocks first, then the log_std block (lines 63-66). -/
def get_param_values (s : MLPState) : List ℚ :=
  s.params.model_params.flatten ++ s.params.log_std

/-- Slice a flat vector into consecutive blocks of the given sizes
(the `current_idx` walk of lines 70-75). -/
def split_sizes : List ℕ → List ℚ → List (List ℚ)
  | [], _ => []
  | n :: ns, v => v.take n :: split_sizes ns (v.drop n)

/-- Assign one snapshot from a flat vector: each network block takes its
slice (sizes are the existing block lengths, the fixed shape table), the
log_std block takes the final slice and is then clamped at `min_log_std`
(`torch.clamp(params[-1], self.min_log_std)`, lines 76-78 / 88-90). -/
def set_snapshot (min_ls : ℚ) (v : List ℚ) (p : MLPParams) : MLPParams :=
  let ms := p.model_params.map List.length
  { model_params := split_sizes ms v
    log_std := ((v.drop ms.sum).take p.log_std.length).map (fun x => max x min_ls) }

/-- `set_param_values(new_params, set_new, set_old)` (lines 68-90): assign
the current snapshot when `set_new`, the old snapshot when `set_old`. -/
def set_param_values (v : List ℚ) (set_new set_old : Bool) (s : MLPState) : MLPState :=
  let s1 := if set_new then { s with params := set_snapshot s.min_log_std v s.params } else s
  if set_old then { s1 with old := set_snapshot s1.min_log_std v s1.old } else s1

/-- Concrete policy state used to witness C1: two network blocks of sizes
2 and 1, a log_std block of size 2, floor -3. -/
def ex_state : MLPState :=
  { params := { model_params := [[1, 2], [3]], log_std := [0, -5] }
    old := { model_params := [[1, 2], [3]], log_std := [0, -5] }
    min_log_std := -3 }

/-- Concrete flat vector of length 5 used to witness C1. -/
def ex_vec : List ℚ := [4, 5, 6, 7, -10]

/-! ## Gaussian MLP policy: distribution computations
Embedding of `MLP.mean_LL`, `MLP.log_likelihood`, `MLP.likelihood_ratio`
and `MLP.mean_kl` (gaussian_mlp.py lines 126-174) over the reals.
Batches are lists of rows. -/

/-- `zs = (act_var - mean) / torch.exp(log_std)` for one sample
(line 140), elementwise over the action dimension. -/
noncomputable def z_row (log_std mu a : List ℝ) : List ℝ :=
  ((a.zip mu).zip log_std).map (fun p => (p.1.1 - p.1.2) / Real.exp p.2)

/-- Per-sample log-likelihood
`-0.5*sum(zs**2) - sum(log_std) - 0.5*m*log(2*pi)` (lines 141-143). -/
noncomputable def row_LL (m : ℕ) (log_std mu a : List ℝ) : ℝ :=
  -0.5 * ((z_row log_std mu a).map (fun z => z ^ 2)).sum - log_std.sum
    - 0.5 * m * Real.log (2 * Real.pi)

/-- Modelled from the spec: `FCNetwork` (mjrl/utils/fc_network.py, not part
of this excerpt) is a function approximator mapping an observation row to a
mean-action row; `model(obs_var)` on a batch applies it to each row
independently. -/
def batch_means (model : List ℝ → List ℝ) (obs : List (List ℝ)) : List (List ℝ) :=
  obs.map model

/-- `MLP.mean_LL(observations, actions, model, log_std)` (lines 126-144):
returns the batch of means and the per-sample log-likelihood vector.
`m` is the action dimension `self.m`. -/
noncomputable def mean_LL (model : List ℝ → List ℝ) (log_std : List ℝ) (m : ℕ)
    (observations actions : List (List ℝ)) : List (List ℝ) × List ℝ :=
  let means := batch_means model observations
  (means, (actions.zip means).map (fun p => row_LL m log_std p.2 p.1))

/-- `MLP.log_likelihood(observations, actions)` (lines 146-148): the LL
component of `mean_LL`. -/
noncomputable def log_likelihood (model : List ℝ → List ℝ) (log_std : List ℝ) (m : ℕ)
    (observations actions : List (List ℝ)) : List ℝ :=
  (mean_LL model log_std m observations actions).2

/-- Distribution info `[LL, mean, log_std]` as returned by
`old_dist_info` / `new_dist_info` (lines 150-156). -/
structure DistInfo where
  LL : List ℝ
  mean : List (List ℝ)
  log_std : List ℝ

/-- `MLP.likelihood_ratio(new_dist_info, old_dist_info)` (lines 158-162):
`LR = torch.exp(LL_new - LL_old)`, elementwise over the batch. -/
noncomputable def likelihood_ratio (new old : DistInfo) : List ℝ :=
  (new.LL.zip old.LL).map (fun p => Real.exp (p.1 - p.2))

/-- The `1e-8` guard in the KL denominator (line 172). -/
noncomputable def kl_eps : ℝ := 1 / 100000000

/-- One coordinate of the per-sample KL summand:
`Nr/Dr + new_log_std - old_log_std` with
`Nr = (old_mean-new_mean)**2 + old_std**2 - new_std**2`,
`Dr = 2*new_std**2 + 1e-8` (lines 171-173). -/
noncomputable def kl_term (om nm ols nls : ℝ) : ℝ :=
  ((om - nm) ^ 2 + Real.exp ols ^ 2 - Real.exp nls ^ 2)
    / (2 * Real.exp nls ^ 2 + kl_eps) + nls - ols

/-- `sample_kl` for one sample: sum of `kl_term` over the action
dimension (line 173, `torch.sum(..., dim=1)`). -/
noncomputable def sample_kl_row (new_ls old_ls : List ℝ) (old_row new_row : List ℝ) : ℝ :=
  (((old_row.zip new_row).zip (old_ls.zip new_ls)).map
    (fun p => kl_term p.1.1 p.1.2 p.2.1 p.2.2)).sum

/-- `torch.mean` of a vector: sum divided by length. -/
noncomputable def torch_mean (l : List ℝ) : ℝ := l.sum / l.length

/-- `MLP.mean_kl(new_dist_info, old_dist_info)` (lines 164-174):
average of `sample_kl` over the batch. -/
noncomputable def mean_kl (new old : DistInfo) : ℝ :=
  torch_mean ((old.mean.zip new.mean).map
    (fun p => sample_kl_row new.log_std old.log_std p.1 p.2))

/-- Element of a real list at an index, 0 out of range. -/
def eltD (l : List ℝ) (j : ℕ) : ℝ := l.getD j 0

/-- Row of a batch at an index, empty out of range. -/
def rowD (l : List (List ℝ)) (i : ℕ) : List ℝ := l.getD i []

/-- Reorder the rows of a batch by a list of indices (a permutation of
the row indices is such a list). -/
def reindex_rows (p : List ℕ) (l : List (List ℝ)) : List (List ℝ) :=
  p.map (fun i => l.getD i [])

/-- Reorder the entries of a per-sample result vector by the same index
list. -/
def reindex_vals (p : List ℕ) (l : List ℝ) : List ℝ :=
  p.map (fun i => l.getD i 0)

/-- Identity network on 1-dimensional observations, used for concrete
instances: the mean action equals the observation. -/
def id_model : List ℝ → List ℝ := fun o => o

/-! ## Training-loop script `run_npgq.py`
Embedding of the checkpoint schedule (lines 206-212, 223-225), the
`start_state` validation (lines 60-64), the optional-metric logging
(lines 128-135, 192-204) and the path-window trimming (lines 73-74,
112-116). -/

/-- The checkpoint condition of line 207:
`outer_iter > 0 and outer_iter % save_freq == 0`. -/
def save_at (save_freq i : ℕ) : Bool :=
  decide (0 < i) && decide (i % save_freq = 0)

/-- The outer iterations at which the periodic checkpoint branch fires
during a run of `num_iter` iterations. -/
def saved_iters (num_iter save_freq : ℕ) : List ℕ :=
  (List.range num_iter).filter (fun i => save_at save_freq i)

/-- The pickle files written by a run: an agent and a policy file per
periodic checkpoint (lines 210-211), plus the final pair written after
the loop (lines 224-225). -/
def checkpoint_files (num_iter save_freq : ℕ) : List String :=
  ((saved_iters num_iter save_freq).flatMap
    (fun i => ["agent_" ++ toString i ++ ".pickle", "policy_" ++ toString i ++ ".pickle"]))
  ++ ["agent_final.pickle", "policy_final.pickle"]

/-- The `start_state` validation of line 64:
`assert job_data['start_state'] in ['init', 'buffer']`. -/
def valid_start_state (s : String) : Bool :=
  s == "init" || s == "buffer"

/-- Observable events of the script, in program order: the assert firing
(line 64), environment creation (line 84), model fitting (lines 142-150)
and an outer training iteration (line 103). -/
inductive RunEvent where
  | assertFail : RunEvent
  | envCreated : RunEvent
  | modelFit : ℕ → RunEvent
  | trainIter : ℕ → RunEvent
deriving DecidableEq, Repr

/-- Event trace of the script: the assert at line 64 runs before the
environment is created at line 84 and before the training loop at
line 103; a failed assert aborts the program there. -/
def program_trace (start_state : String) (num_iter : ℕ) : List RunEvent :=
  if valid_start_state start_state then
    RunEvent.envCreated ::
      (List.range num_iter).flatMap (fun i => [RunEvent.modelFit i, RunEvent.trainIter i])
  else [RunEvent.assertFail]

/-- Append a metric to the log when the `evaluate_success` callback
returns, leave the log unchanged when it raises (the
`try/except: pass` of lines 131-135 and 198-202). -/
def log_with_metric (key : String) (res : Except String ℝ)
    (log : List (String × ℝ)) : List (String × ℝ) :=
  match res with
  | Except.ok v => log ++ [(key, v)]
  | Except.error _ => log

/-- The key/value entries logged by one outer iteration, in program
order (lines 128-135, 192-204, 215): `fit_epochs`, `rollout_score`,
`iter_samples`, then `rollout_metric` if its callback succeeds, then —
when `eval_rollouts > 0` — `eval_score` and `eval_metric` if its
callback succeeds, and finally `iter_time`. -/
def iter_logs (fit_epochs rollout_score iter_samples : ℝ)
    (rollout_res : Except String ℝ) (eval_rollouts : ℕ) (eval_score : ℝ)
    (eval_res : Except String ℝ) (iter_time : ℝ) : List (String × ℝ) :=
  let l1 := log_with_metric "rollout_metric" rollout_res
    [("fit_epochs", fit_epochs), ("rollout_score", rollout_score),
     ("iter_samples", iter_samples)]
  let l2 := if 0 < eval_rollouts then
      log_with_metric "eval_metric" eval_res (l1 ++ [("eval_score", eval_score)])
    else l1
  l2 ++ [("iter_time", iter_time)]

/-- `buffer_size(paths_list)` (lines 73-74): each path contributes
`len(observations) - 1` transitions.  A path is represented by its
number of observations. -/
def buffer_size (paths_list : List ℕ) : ℕ :=
  (paths_list.map (fun n => n - 1)).sum

/-- The trimming loop of lines 115-116:
`while buffer_size(paths) > job_data['buffer_size']: paths[:1] = []` —
drop the oldest path while the window exceeds the cap. -/
def trim_paths (cap : ℕ) : List ℕ → List ℕ
  | [] => []
  | p :: ps => if cap < buffer_size (p :: ps) then trim_paths cap ps else p :: ps

/-- One iteration's ingestion step (lines 112-116): append the new paths
to the window, then trim oldest-first. -/
def ingest_paths (cap : ℕ) (old_paths new_paths : List ℕ) : List ℕ :=
  trim_paths cap (old_paths ++ new_paths)

/-! ## Lemmas about the parameter plumbing -/

theorem split_sizes_flatten (ns : List ℕ) (v : List ℚ) :
    (split_sizes ns v).flatten = v.take ns.sum := by
  induction ns generalizing v with
  | nil => simp [split_sizes]
  | cons n ns ih =>
      simp only [split_sizes, List.flatten_cons, List.sum_cons, ih, List.take_add]

theorem split_sizes_lengths (ns : List ℕ) (v : List ℚ) (h : ns.sum ≤ v.length) :
    (split_sizes ns v).map List.length = ns := by
  induction ns generalizing v with
  | nil => simp [split_sizes]
  | cons n ns ih =>
      simp only [List.sum_cons] at h
      have hn : n ≤ v.length := le_trans (Nat.le_add_right _ _) h
      have hns : ns.sum ≤ (v.drop n).length := by
        simp only [List.length_drop]
        omega
      simp only [split_sizes, List.map_cons, List.length_take, ih _ hns,
        Nat.min_eq_left hn]

theorem get_set_param_values (s : MLPState) (v : List ℚ)
    (h : v.length = total_size s.params) :
    get_param_values (set_param_values v true true s) =
      v.take (model_size s.params)
        ++ (v.drop (model_size s.params)).map (fun x => max x s.min_log_std) := by
  have hdrop : (v.drop ((s.params.model_params.map List.length).sum)).take
        s.params.log_std.length
      = v.drop ((s.params.model_params.map List.length).sum) := by
    apply List.take_of_length_le
    simp only [List.length_drop]
    simp only [total_size, model_size] at h
    omega
  simp only [set_param_values, get_param_values, set_snapshot, if_pos]
  simp only [split_sizes_flatten, model_size, hdrop]

theorem set_param_values_params_shape (s : MLPState) (v : List ℚ)
    (h : v.length = total_size s.params) :
    ((set_param_values v true true s).params.model_params.map List.length
        = s.params.model_params.map List.length)
    ∧ (set_param_values v true true s).params.log_std.length
        = s.params.log_std.length := by
  have hms : (s.params.model_params.map List.length).sum ≤ v.length := by
    simp only [total_size, model_size] at h
    omega
  constructor
  · simp only [set_param_values, set_snapshot, if_pos]
    exact split_sizes_lengths _ _ hms
  · simp only [set_param_values, set_snapshot, if_pos, List.length_map,
      List.length_take, List.length_drop]
    simp only [total_size, model_size] at h
    omega

/-- Clamping at the floor twice is the same as clamping once. -/
theorem clamp_idem (m : ℚ) (l : List ℚ) :
    (l.map (fun x => max x m)).map (fun x => max x m) = l.map (fun x => max x m) := by
  simp only [List.map_map]
  apply List.map_congr_left
  intro x _
  simp only [Function.comp_apply, max_assoc, max_self]

/-- C1: for every flat vector `v` of the policy's total parameter count,
`set_param_values(v)` followed by `get_param_values()` returns `v`
unchanged on the network blocks and `max(v_i, min_log_std)` on the final
(log-std) block, and setting from the returned vector and reading again
returns the same vector (the clamp is idempotent). -/
theorem c1_set_then_get_clamps_log_std (s : MLPState) (v : List ℚ)
    (h : v.length = total_size s.params) :
    get_param_values (set_param_values v true true s) =
      v.take (model_size s.params)
        ++ (v.drop (model_size s.params)).map (fun x => max x s.min_log_std)
    ∧ get_param_values (set_param_values
          (get_param_values (set_param_values v true true s))
          true true (set_param_values v true true s))
        = get_param_values (set_param_values v true true s) := by
  have h1 := get_set_param_values s v h
  refine ⟨h1, ?_⟩
  have hshape := set_param_values_params_shape s v h
  have hmin : (set_param_values v true true s).min_log_std = s.min_log_std := rfl
  have hms : model_size (set_param_values v true true s).params = model_size s.params := by
    simp only [model_size, hshape.1]
  have hmsle : model_size s.params ≤ v.length := by
    simp only [total_size] at h
    omega
  have htklen : (v.take (model_size s.params)).length = model_size s.params := by
    simp [List.length_take, Nat.min_eq_left hmsle]
  have hw : (get_param_values (set_param_values v true true s)).length
      = total_size (set_param_values v true true s).params := by
    rw [h1]
    simp only [List.length_append, htklen, List.length_map, List.length_drop,
      total_size, hms, hshape.2]
    simp only [total_size] at h
    omega
  have h2 := get_set_param_values (set_param_values v true true s) _ hw
  rw [h2, hms, hmin]
  conv_lhs => rw [h1]
  rw [List.take_left' htklen, List.drop_left' htklen, clamp_idem, h1]

theorem c1_witness :
    ex_vec.length = total_size ex_state.params
    ∧ (get_param_values (set_param_values ex_vec true true ex_state) =
        ex_vec.take (model_size ex_state.params)
          ++ (ex_vec.drop (model_size ex_state.params)).map
              (fun x => max x ex_state.min_log_std)
      ∧ get_param_values (set_param_values
            (get_param_values (set_param_values ex_vec true true ex_state))
            true true (set_param_values ex_vec true true ex_state))
          = get_param_values (set_param_values ex_vec true true ex_state)) :=
  ⟨by decide, c1_set_then_get_clamps_log_std ex_state ex_vec (by decide)⟩

/-- C10: `set_param_values(v, set_new=True, set_old=False)` leaves the
old snapshot untouched, and `set_param_values(v, set_new=False,
set_old=True)` leaves the current snapshot untouched. -/
theorem c10_set_param_values_frame (s : MLPState) (v : List ℚ) :
    (set_param_values v true false s).old = s.old
    ∧ (set_param_values v false true s).params = s.params := by
  constructor <;> simp [set_param_values]

/-! ## Training-loop theorems -/

/-- C2 counterexample: in a run with `num_iter = 1` and the default
`save_freq = 10`, iteration 0 satisfies `0 % save_freq == 0` yet no
periodic checkpoint is written there (the branch also requires
`outer_iter > 0`). -/
theorem c2_counterexample :
    (0 % 10 = 0 ∧ 0 < 1) ∧ 0 ∉ saved_iters 1 10 := by decide

/-- C2 (amended): periodic agent/policy checkpoints are written at
exactly the outer iterations `i` with `0 < i` and `i % save_freq == 0`,
and one final agent and policy checkpoint is always written after the
last iteration. -/
theorem c2_amended_checkpoint_schedule (num_iter save_freq : ℕ) :
    (∀ i, i ∈ saved_iters num_iter save_freq ↔ (i < num_iter ∧ 0 < i ∧ i % save_freq = 0))
    ∧ "agent_final.pickle" ∈ checkpoint_files num_iter save_freq
    ∧ "policy_final.pickle" ∈ checkpoint_files num_iter save_freq := by
  refine ⟨fun i => ?_, ?_, ?_⟩
  · simp only [saved_iters, save_at, List.mem_filter, List.mem_range,
      Bool.and_eq_true, decide_eq_true_eq]
  · simp [checkpoint_files]
  · simp [checkpoint_files]

/-- C7: for every combination of outcomes of the two optional
`evaluate_success` call sites — both succeed, both raise, or exactly one
raises — a raising callback is caught locally: the non-metric entries of
the iteration's log are the same fixed sequence whatever the two
outcomes, `rollout_metric` is logged (with its value) exactly when the
rollout-paths callback returns, `eval_metric` exactly when the
evaluation branch runs and its callback returns, and the iteration still
runs to completion (`iter_time`, the final entry, is logged); no
exception propagates (the embedding is a total function of the two
callback results). -/
theorem c7_metric_failures_ignored (f r n s t : ℝ) (er : ℕ)
    (rollout_res eval_res : Except String ℝ) :
    (iter_logs f r n rollout_res er s eval_res t).filter
        (fun kv => !(kv.1 == "rollout_metric" || kv.1 == "eval_metric"))
      = [("fit_epochs", f), ("rollout_score", r), ("iter_samples", n)]
          ++ (if 0 < er then [("eval_score", s)] else []) ++ [("iter_time", t)]
    ∧ (∀ v : ℝ, ("rollout_metric", v) ∈ iter_logs f r n rollout_res er s eval_res t
        ↔ rollout_res = Except.ok v)
    ∧ (∀ v : ℝ, ("eval_metric", v) ∈ iter_logs f r n rollout_res er s eval_res t
        ↔ (0 < er ∧ eval_res = Except.ok v))
    ∧ ("iter_time", t) ∈ iter_logs f r n rollout_res er s eval_res t := by
  refine ⟨?_, ?_, ?_, ?_⟩ <;>
    rcases rollout_res with e1 | v1 <;> rcases eval_res with e2 | v2 <;>
      by_cases h : 0 < er <;>
        simp [iter_logs, log_with_metric, h, List.filter, Prod.ext_iff, eq_comm]

/-- C8: a configuration whose `start_state` is neither "init" nor
"buffer" makes the script abort at the line-64 assert, before the
environment is created, any model is fit, or any training iteration
runs; a valid `start_state` passes the assert and training proceeds. -/
theorem c8_start_state_validation (ss : String) (num_iter : ℕ) :
    (valid_start_state ss = false →
      program_trace ss num_iter = [RunEvent.assertFail]
      ∧ RunEvent.envCreated ∉ program_trace ss num_iter
      ∧ ∀ i, RunEvent.modelFit i ∉ program_trace ss num_iter
          ∧ RunEvent.trainIter i ∉ program_trace ss num_iter)
    ∧ (valid_start_state ss = true →
        RunEvent.assertFail ∉ program_trace ss num_iter) := by
  constructor
  · intro h
    simp [program_trace, h]
  · intro h
    simp [program_trace, h, List.mem_flatMap]

theorem c8_witness :
    valid_start_state "restart" = false
    ∧ program_trace "restart" 2 = [RunEvent.assertFail]
    ∧ valid_start_state "buffer" = true
    ∧ RunEvent.assertFail ∉ program_trace "buffer" 2 :=
  ⟨by decide, ((c8_start_state_validation "restart" 2).1 (by decide)).1, by decide,
    (c8_start_state_validation "buffer" 2).2 (by decide)⟩

/-- The trimming loop stops with the window within the cap. -/
theorem buffer_size_trim_paths_le (cap : ℕ) (l : List ℕ) :
    buffer_size (trim_paths cap l) ≤ cap := by
  induction l with
  | nil => simp [trim_paths, buffer_size]
  | cons p ps ih =>
      by_cases h : cap < buffer_size (p :: ps)
      · simpa [trim_paths, h] using ih
      · simpa [trim_paths, h] using le_of_not_lt h

/-- The trimming loop only removes oldest paths: the result is a suffix. -/
theorem trim_paths_suffix (cap : ℕ) (l : List ℕ) :
    (trim_paths cap l).IsSuffix l := by
  induction l with
  | nil => simp [trim_paths]
  | cons p ps ih =>
      by_cases h : cap < buffer_size (p :: ps)
      · simp only [trim_paths, if_pos h]
        exact ih.trans (List.suffix_cons p ps)
      · simp [trim_paths, if_neg h]

/-- C9: after ingesting the iteration's new paths and trimming, the path
window holds at most `buffer_size` transitions (counting
`len(observations) - 1` per path), and the retained paths are a
contiguous suffix of the insertion order. -/
theorem c9_path_window_bounded_suffix (cap : ℕ) (old_paths new_paths : List ℕ) :
    buffer_size (ingest_paths cap old_paths new_paths) ≤ cap
    ∧ (ingest_paths cap old_paths new_paths).IsSuffix (old_paths ++ new_paths) :=
  ⟨buffer_size_trim_paths_le cap _, trim_paths_suffix cap _⟩

/-! ## Distribution-identity theorems -/

/-- Zipping a list with itself pairs each element with itself. -/
theorem zip_self {α : Type} (l : List α) : l.zip l = l.map (fun a => (a, a)) := by
  induction l with
  | nil => rfl
  | cons a t ih => simp [ih]

/-- The KL summand vanishes when both distributions coincide on a
coordinate. -/
theorem kl_term_self (a b : ℝ) : kl_term a a b b = 0 := by
  simp [kl_term]

/-- A sample's KL against itself is zero. -/
theorem sample_kl_row_self (ls r : List ℝ) : sample_kl_row ls ls r r = 0 := by
  apply List.sum_eq_zero
  intro x hx
  simp only [sample_kl_row, zip_self, List.mem_map] at hx
  obtain ⟨p, hp, rfl⟩ := hx
  obtain ⟨hp1, hp2⟩ := List.of_mem_zip hp
  simp only [List.mem_map] at hp1 hp2
  obtain ⟨a, _, ha⟩ := hp1
  obtain ⟨b, _, hb⟩ := hp2
  rw [← ha, ← hb]
  exact kl_term_self a b

/-- C4: `mean_kl(d, d)` — identical means and log-stds in both argument
positions — returns exactly 0. -/
theorem c4_mean_kl_self_eq_zero (d : DistInfo) : mean_kl d d = 0 := by
  have h : (d.mean.zip d.mean).map
      (fun p => sample_kl_row d.log_std d.log_std p.1 p.2)
      = (d.mean.zip d.mean).map (fun _ => (0 : ℝ)) := by
    apply List.map_congr_left
    intro p hp
    rw [zip_self, List.mem_map] at hp
    obtain ⟨r, _, hr⟩ := hp
    rw [← hr]
    exact sample_kl_row_self d.log_std r
  rw [mean_kl, h]
  simp [torch_mean]

/-- C5: `likelihood_ratio(d, d)` — identical distribution infos in both
argument positions — returns exactly 1 for every sample. -/
theorem c5_likelihood_ratio_self_eq_one (d : DistInfo) :
    likelihood_ratio d d = List.replicate d.LL.length 1 := by
  simp only [ likelihood_ratio, zip_self, List.map_map]
  have h : ((fun p : ℝ × ℝ => Real.exp (p.1 - p.2)) ∘ fun a => (a, a))
      = fun _ : ℝ => (1 : ℝ) := by
    funext a
    simp
  rw [h]
  simp [List.map_const']

/-! ## Log-likelihood formula and permutation behaviour -/

/-- A list sum as a sum over indices. -/
theorem sum_eq_range_getD (l : List ℝ) :
    l.sum = ∑ j ∈ Finset.range l.length, l.getD j 0 := by
  induction l with
  | nil => simp
  | cons a t ih =>
      rw [List.sum_cons, ih, List.length_cons, Finset.sum_range_succ']
      simp [add_comm]

/-- Summing a ternary coordinatewise map over a double zip equals the
index-wise sum, when the three lists have equal length. -/
theorem zipzip_sum (f : ℝ → ℝ → ℝ → ℝ) (a mu ls : List ℝ)
    (h1 : a.length = mu.length) (h2 : mu.length = ls.length) :
    (((a.zip mu).zip ls).map (fun p => f p.1.1 p.1.2 p.2)).sum
      = ∑ j ∈ Finset.range a.length, f (a.getD j 0) (mu.getD j 0) (ls.getD j 0) := by
  induction a generalizing mu ls with
  | nil => simp
  | cons x xs ih =>
      cases mu with
      | nil => simp at h1
      | cons y ys =>
          cases ls with
          | nil => simp at h2
          | cons z zs =>
              have h1' : xs.length = ys.length := by simpa using h1
              have h2' : ys.length = zs.length := by simpa using h2
              simp only [List.zip_cons_cons, List.map_cons, List.sum_cons,
                List.length_cons, Finset.sum_range_succ', List.getD_cons_succ,
                List.getD_cons_zero]
              rw [ih ys zs h1' h2', add_comm]

/-- The per-sample log-likelihood as the index-wise formula of the spec. -/
theorem row_LL_formula (m : ℕ) (log_std mu a : List ℝ)
    (hls : log_std.length = m) (hmu : mu.length = m) (ha : a.length = m) :
    row_LL m log_std mu a =
      -0.5 * (∑ j ∈ Finset.range m,
          ((eltD a j - eltD mu j) / Real.exp (eltD log_std j)) ^ 2)
        - (∑ j ∈ Finset.range m, eltD log_std j)
        - 0.5 * m * Real.log (2 * Real.pi) := by
  have hsq : ((z_row log_std mu a).map (fun z => z ^ 2)).sum
      = (((a.zip mu).zip log_std).map
          (fun p => ((p.1.1 - p.1.2) / Real.exp p.2) ^ 2)).sum := by
    rw [z_row, List.map_map]
    rfl
  have hz := zipzip_sum (fun x y c => ((x - y) / Real.exp c) ^ 2) a mu log_std
    (by omega) (by omega)
  have hlssum : log_std.sum = ∑ j ∈ Finset.range m, eltD log_std j := by
    rw [sum_eq_range_getD, hls]
    rfl
  rw [row_LL, hsq, hz, hlssum, ha]
  rfl

/-- The log-likelihood vector, sample by sample: entry `i` is the
per-sample log-likelihood of action row `i` against the mean computed
from observation row `i`. -/
theorem LL_getD (model : List ℝ → List ℝ) (log_std : List ℝ) (m : ℕ)
    (obs acts : List (List ℝ)) (hlen : obs.length = acts.length)
    (i : ℕ) (hi : i < acts.length) :
    (log_likelihood model log_std m obs acts).getD i 0
      = row_LL m log_std (model (obs.getD i [])) (acts.getD i []) := by
  induction acts generalizing obs i with
  | nil => simp at hi
  | cons a as ih =>
      cases obs with
      | nil => simp at hlen
      | cons o os =>
          have hlen' : os.length = as.length := by simpa using hlen
          cases i with
          | zero =>
              simp [log_likelihood, mean_LL, batch_means]
          | succ j =>
              have hj : j < as.length := by simpa using hi
              have := ih os hlen' j hj
              simpa [log_likelihood, mean_LL, batch_means,
                List.getD_cons_succ] using this

/-- C3: for every batch, each sample's `log_likelihood` equals
`-0.5*sum_j(z_j^2) - sum_j(log_std_j) - 0.5*m*log(2*pi)` with
`z = (action - mean(observation)) / exp(log_std)` and the mean the
network's output on that sample's observation. -/
theorem c3_log_likelihood_gaussian_formula (model : List ℝ → List ℝ)
    (log_std : List ℝ) (m : ℕ) (obs acts : List (List ℝ))
    (hlen : obs.length = acts.length) (hls : log_std.length = m)
    (ha : ∀ r ∈ acts, r.length = m) (hm : ∀ r ∈ obs, (model r).length = m)
    (i : ℕ) (hi : i < acts.length) :
    eltD (log_likelihood model log_std m obs acts) i =
      -0.5 * (∑ j ∈ Finset.range m,
          ((eltD (rowD acts i) j - eltD (model (rowD obs i)) j)
            / Real.exp (eltD log_std j)) ^ 2)
        - (∑ j ∈ Finset.range m, eltD log_std j)
        - 0.5 * m * Real.log (2 * Real.pi) := by
  rw [eltD, LL_getD model log_std m obs acts hlen i hi]
  have hio : i < obs.length := by omega
  have hai : acts.getD i [] ∈ acts := by
    rw [List.getD_eq_getElem _ _ hi]
    exact List.getElem_mem hi
  have hoi : obs.getD i [] ∈ obs := by
    rw [List.getD_eq_getElem _ _ hio]
    exact List.getElem_mem hio
  exact row_LL_formula m log_std (model (obs.getD i [])) (acts.getD i [])
    hls (hm _ hoi) (ha _ hai)

theorem c3_witness :
    (0 : ℕ) < ([[(1 : ℝ)]] : List (List ℝ)).length
    ∧ eltD (log_likelihood id_model [0] 1 [[0]] [[1]]) 0 =
        -0.5 * (∑ j ∈ Finset.range 1,
            ((eltD (rowD [[(1 : ℝ)]] 0) j - eltD (id_model (rowD [[(0 : ℝ)]] 0)) j)
              / Real.exp (eltD [0] j)) ^ 2)
          - (∑ j ∈ Finset.range 1, eltD [0] j)
          - 0.5 * ((1 : ℕ) : ℝ) * Real.log (2 * Real.pi) :=
  ⟨by simp, c3_log_likelihood_gaussian_formula id_model [0] 1 [[0]] [[1]]
    rfl rfl (by simp) (by simp [id_model]) 0 (by simp)⟩

/-- C6 counterexample: with the identity network on 1-dimensional
observations, `log_std = [0]`, observation rows `[[0],[0]]` and action
rows `[[0],[1]]`, applying the swap permutation to both batches in
lockstep changes the returned vector (the two samples' log-likelihoods
are swapped, and they differ), so the permuted call does not return the
same result as the unpermuted call. -/
theorem c6_counterexample :
    ¬ (log_likelihood id_model [0] 1 (reindex_rows [1, 0] [[0], [0]])
          (reindex_rows [1, 0] [[0], [1]])
        = log_likelihood id_model [0] 1 [[0], [0]] [[0], [1]]) := by
  intro h
  simp only [log_likelihood, mean_LL, batch_means, id_model, reindex_rows,
    row_LL, z_row, List.map_cons, List.map_nil, List.zip_cons_cons,
    List.zip_nil_right, List.getD_cons_zero, List.getD_cons_succ,
    List.sum_cons, List.sum_nil, Real.exp_zero, List.cons.injEq] at h
  obtain ⟨h1, -⟩ := h
  norm_num at h1

/-- C6 (amended): permuting the observation rows and the action rows in
lockstep permutes the returned log-likelihood vector the same way —
each sample's value depends only on its own row — rather than returning
the identical vector. -/
theorem c6_amended_permutation_equivariance (model : List ℝ → List ℝ)
    (log_std : List ℝ) (m : ℕ) (obs acts : List (List ℝ)) (p : List ℕ)
    (hlen : obs.length = acts.length) (hp : ∀ i ∈ p, i < acts.length) :
    log_likelihood model log_std m (reindex_rows p obs) (reindex_rows p acts)
      = reindex_vals p (log_likelihood model log_std m obs acts) := by
  simp only [log_likelihood, mean_LL, batch_means, reindex_rows, reindex_vals,
    List.map_map]
  rw [List.zip_map']
  rw [List.map_map]
  apply List.map_congr_left
  intro i hi
  have hia : i < acts.length := hp i hi
  simp only [Function.comp_apply]
  rw [← LL_getD model log_std m obs acts hlen i hia]
  rfl

theorem c6_witness :
    (∀ i ∈ [0], i < ([[(1 : ℝ)]] : List (List ℝ)).length)
    ∧ log_likelihood id_model [0] 1 (reindex_rows [0] [[0]]) (reindex_rows [0] [[1]])
        = reindex_vals [0] (log_likelihood id_model [0] 1 [[0]] [[1]]) :=
  ⟨by simp, c6_amended_permutation_equivariance id_model [0] 1 [[0]] [[1]] [0]
    rfl (by simp)⟩
